import Mathlib

/-!
Shallow embedding of the sequential outbound call dispatch scheduler:
the scheduled-call store, the batch planner (`/api/scheduled-calls` POST),
the QStash dispatch trigger (`/api/webhooks/qstash/trigger-call`),
the continuation engine shared by the Retell completion webhook and the
post-failure recovery path, the cancellation route, and the legacy
polling dispatcher (`/api/cron/process-scheduled-calls`).

Times are unix epoch milliseconds modelled as `Int` (JS `Date.getTime()`).
JSON string maps are association lists with unique keys; object spread
is modelled by `mergeMaps` below.
-/

namespace VoiceBot

/-- Lifecycle status of a `ScheduledCall` row (prisma enum `ScheduledCallStatus`). -/
inductive CallStatus where
  | PENDING
  | IN_PROGRESS
  | COMPLETED
  | FAILED
  | CANCELLED
deriving DecidableEq

/-- A contact row, restricted to the fields the scheduler reads. -/
structure Contact where
  id : Nat
  organizationId : Nat
  name : String
  phoneNumber : String
  email : Option String
  businessName : Option String
  businessWebsite : Option String
  customFields : List (String × String)
deriving DecidableEq

/-- A `ScheduledCall` row (prisma model `ScheduledCall`). -/
structure ScheduledCall where
  id : Nat
  batchId : Option Nat
  organizationId : Nat
  contactId : Nat
  fromNumber : String
  agentId : String
  scheduledTime : Int
  status : CallStatus
  dynamicVariables : List (String × String)
  retellCallId : Option String
  callId : Option Nat
  attempts : Nat
  maxAttempts : Nat
  errorMessage : Option String
  executedAt : Option Int
  createdAt : Int
deriving DecidableEq

/-- An agent row (only the fields read by the dispatcher). -/
structure Agent where
  id : Nat
  retellAgentId : String
  organizationId : Nat
deriving DecidableEq

/-- A permanent `Call` record created on successful dispatch. -/
structure CallRecord where
  id : Nat
  organizationId : Nat
  contactId : Nat
  agentId : Option Nat
  retellCallId : String
  status : String
  direction : String
  fromNumber : String
  toNumber : String
  clientPhoneNumber : Option String
  startedAt : Option Int
deriving DecidableEq

/-- The persisted store the handlers read and write. -/
structure Store where
  scheduledCalls : List ScheduledCall
  contacts : List Contact
  agents : List Agent
  calls : List CallRecord
deriving DecidableEq

/-- A QStash `publishJSON` registration:
`\x7b url, body: \x7b scheduledCallId \x7d, notBefore? \x7d`.
`notBefore` is in unix seconds; `none` means immediate delivery. -/
structure PublishEvent where
  scheduledCallId : Nat
  notBefore : Option Int
deriving DecidableEq

/-- Body of a Retell `create-phone-call` placement request. -/
structure RetellPayload where
  from_number : String
  to_number : String
  override_agent_id : String
  retell_llm_dynamic_variables : List (String × String)
deriving DecidableEq

/-- Outcome of the `fetch` to the Retell placement API. -/
inductive ProviderResult where
  | ok (call_id : String)
  | httpError (errorBody : String)
  | transportError (msg : String)
deriving DecidableEq

/-- Ambient environment of one dispatch invocation: provider credentials,
the provider's response, the wall clock, and the locale-formatted
date/time strings (`toLocaleDateString` / `toLocaleTimeString`). -/
structure DispatchEnv where
  retellApiKey : Option String
  provider : ProviderResult
  now : Int
  currentDate : String
  currentTime : String
  hour : Nat
  newCallRecordId : Nat
deriving DecidableEq

/-! ### String maps (JS objects) -/

/-- Reading a key of a JS object (association list with unique keys). -/
def lookupKV : List (String × String) → String → Option String
  | [], _ => none
  | p :: rest, k => if p.1 = k then some p.2 else lookupKV rest k

/-- Assigning a key of a JS object: replace the existing entry in place,
or append a new one.  All maps built here have unique keys. -/
def setKey : List (String × String) → String → String → List (String × String)
  | [], k, v => [(k, v)]
  | p :: rest, k, v => if p.1 = k then (k, v) :: rest else p :: setKey rest k v

/-- Object spread `\x7b ...base, ...extra \x7d`: every entry of `extra`,
in order, overwrites or extends `base`. -/
def mergeMaps (base extra : List (String × String)) : List (String × String) :=
  extra.foldl (fun acc p => setKey acc p.1 p.2) base

/-- First-some choice on options. -/
def orO (a b : Option String) : Option String :=
  match a with
  | some v => some v
  | none => b

/-- The value the LAST entry of the list gives a key (JS spread: later wins). -/
def lookupLast : List (String × String) → String → Option String
  | [], _ => none
  | p :: rest, k => orO (lookupLast rest k) (if p.1 = k then some p.2 else none)

/-- The keys of a map are pairwise distinct (a JSON object). -/
def nodupKeys (m : List (String × String)) : Prop := (m.map Prod.fst).Nodup

instance (m : List (String × String)) : Decidable (nodupKeys m) := by
  unfold nodupKeys; infer_instance

theorem lookupKV_setKey (m : List (String × String)) (k v k' : String) :
    lookupKV (setKey m k v) k' = if k' = k then some v else lookupKV m k' := by
  induction m with
  | nil =>
    by_cases h : k' = k
    · simp [setKey, lookupKV, h]
    · simp [setKey, lookupKV, h, Ne.symm h]
  | cons p rest ih =>
    by_cases hp : p.1 = k
    · by_cases h : k' = k
      · simp [setKey, lookupKV, hp, h]
      · have hpk : ¬ p.1 = k' := by rw [hp]; exact Ne.symm h
        simp [setKey, lookupKV, hp, h, Ne.symm h, hpk]
    · by_cases h : k' = k
      · subst h
        simp [setKey, lookupKV, hp, ih]
      · simp [setKey, lookupKV, hp, h, ih]

theorem orO_some (v : String) (b : Option String) : orO (some v) b = some v := rfl

theorem orO_none (b : Option String) : orO none b = b := rfl

theorem lookupKV_mergeMaps (base extra : List (String × String)) (k : String) :
    lookupKV (mergeMaps base extra) k = orO (lookupLast extra k) (lookupKV base k) := by
  induction extra generalizing base with
  | nil => simp [mergeMaps, lookupLast, orO]
  | cons p rest ih =>
    have step : mergeMaps base (p :: rest) = mergeMaps (setKey base p.1 p.2) rest := rfl
    rw [step, ih, lookupKV_setKey]
    simp only [lookupLast]
    cases hrest : lookupLast rest k with
    | some w => simp [orO]
    | none =>
      by_cases h : p.1 = k
      · simp [orO, h]
      · have hk : ¬ k = p.1 := Ne.symm h
        simp [orO, h, hk]

theorem lookupLast_eq_none_of_not_mem (m : List (String × String)) (k : String)
    (h : k ∉ m.map Prod.fst) : lookupLast m k = none := by
  induction m with
  | nil => rfl
  | cons p rest ih =>
    simp only [List.map_cons, List.mem_cons] at h
    push_neg at h
    have hp : ¬ p.1 = k := fun hh => h.1 hh.symm
    simp [lookupLast, ih h.2, hp, orO]

theorem lookupLast_eq_lookupKV (m : List (String × String)) (k : String)
    (h : nodupKeys m) : lookupLast m k = lookupKV m k := by
  induction m with
  | nil => rfl
  | cons p rest ih =>
    simp only [nodupKeys, List.map_cons, List.nodup_cons] at h
    by_cases hp : p.1 = k
    · have : k ∉ rest.map Prod.fst := hp ▸ h.1
      simp [lookupLast, lookupKV, hp, lookupLast_eq_none_of_not_mem rest k this, orO]
    · simp [lookupLast, lookupKV, hp, ih h.2]
      cases lookupKV rest k <;> simp [orO]

/-! ### Dispatch payload construction (trigger-call handler and cron dispatcher) -/

/-- The built-in contact fields put into the variable map first
(`contact_name` … `business_website`); `x || ''` on nullable fields. -/
def builtinVars (c : Contact) : List (String × String) :=
  [("contact_name", c.name),
   ("contact_phone", c.phoneNumber),
   ("contact_email", c.email.getD ""),
   ("business_name", c.businessName.getD ""),
   ("business_website", c.businessWebsite.getD "")]

/-- The computed fields of the trigger-call dispatch path:
`current_date` and `current_time` (locale-formatted). -/
def computedVars (env : DispatchEnv) : List (String × String) :=
  [("current_date", env.currentDate), ("current_time", env.currentTime)]

/-- `getGreeting` from the cron dispatcher. -/
def getGreeting (hour : Nat) : String :=
  if hour < 12 then "Good morning"
  else if hour < 18 then "Good afternoon"
  else "Good evening"

/-- The computed fields of the cron dispatch path: date, time, and greeting. -/
def computedVarsCron (env : DispatchEnv) : List (String × String) :=
  computedVars env ++ [("greeting", getGreeting env.hour)]

/-- The `retell_llm_dynamic_variables` object built by the trigger-call
handler: built-ins, then `...customFields`, then `...providedVariables`,
then the literal `current_date` / `current_time` keys. -/
def buildDynamicVariables (c : Contact) (provided : List (String × String))
    (env : DispatchEnv) : List (String × String) :=
  mergeMaps (mergeMaps (mergeMaps (builtinVars c) c.customFields) provided)
    (computedVars env)

/-- The variable object built by the cron dispatcher: same chain, but the
computed fields additionally include `greeting`. -/
def buildDynamicVariablesCron (c : Contact) (provided : List (String × String))
    (env : DispatchEnv) : List (String × String) :=
  mergeMaps (mergeMaps (mergeMaps (builtinVars c) c.customFields) provided)
    (computedVarsCron env)

/-- Modelled from the spec words (claim C8): the computed fields would be
current date, current time AND a time-of-day greeting on every dispatch. -/
def specComputedVars (env : DispatchEnv) : List (String × String) :=
  [("current_date", env.currentDate), ("current_time", env.currentTime),
   ("greeting", getGreeting env.hour)]

/-- Modelled from the spec words (claim C8): the merged dispatch map with
the greeting among the computed fields. -/
def specDispatchVars (c : Contact) (provided : List (String × String))
    (env : DispatchEnv) : List (String × String) :=
  mergeMaps (mergeMaps (mergeMaps (builtinVars c) c.customFields) provided)
    (specComputedVars env)

/-! ### Store operations -/

/-- `prisma.scheduledCall.findUnique(\x7b where: \x7b id \x7d \x7d)`. -/
def findUniqueSC (rows : List ScheduledCall) (id : Nat) : Option ScheduledCall :=
  rows.find? (fun r => decide (r.id = id))

/-- `prisma.scheduledCall.update(\x7b where: \x7b id \x7d, data \x7d)`:
apply `f` to the row(s) with the given id. -/
def updateSC (rows : List ScheduledCall) (id : Nat)
    (f : ScheduledCall → ScheduledCall) : List ScheduledCall :=
  rows.map (fun r => if r.id = id then f r else r)

theorem findUniqueSC_updateSC (rows : List ScheduledCall) (id : Nat)
    (f : ScheduledCall → ScheduledCall) (hf : ∀ r, (f r).id = r.id) :
    findUniqueSC (updateSC rows id f) id = (findUniqueSC rows id).map f := by
  induction rows with
  | nil => rfl
  | cons r rest ih =>
    by_cases h : r.id = id
    · have hfr : (f r).id = id := by rw [hf r, h]
      simp [findUniqueSC, updateSC, List.find?, h, hfr]
    · simp only [findUniqueSC, updateSC, List.map_cons, if_neg h] at *
      simp [List.find?, h, ih]

theorem length_updateSC (rows : List ScheduledCall) (id : Nat)
    (f : ScheduledCall → ScheduledCall) :
    (updateSC rows id f).length = rows.length := by
  simp [updateSC]

theorem mem_updateSC {rows : List ScheduledCall} {id : Nat}
    {f : ScheduledCall → ScheduledCall} {r : ScheduledCall}
    (h : r ∈ updateSC rows id f) :
    ∃ x ∈ rows, r = if x.id = id then f x else x := by
  simp only [updateSC, List.mem_map] at h
  obtain ⟨x, hx, hr⟩ := h
  exact ⟨x, hx, hr.symm⟩

theorem mem_updateSC_self (rows : List ScheduledCall) (id : Nat)
    (f : ScheduledCall → ScheduledCall) (x : ScheduledCall)
    (hx : x ∈ rows) : (if x.id = id then f x else x) ∈ updateSC rows id f := by
  simp only [updateSC, List.mem_map]
  exact ⟨x, hx, rfl⟩

/-! ### Ordering used by `findFirst` -/

/-- `orderBy: [\x7b scheduledTime: 'asc' \x7d, \x7b createdAt: 'asc' \x7d]`:
`a` sorts strictly before `b`. -/
def lexLT (a b : ScheduledCall) : Bool :=
  decide (a.scheduledTime < b.scheduledTime) ||
    (decide (a.scheduledTime = b.scheduledTime) && decide (a.createdAt < b.createdAt))

theorem lexLT_iff (a b : ScheduledCall) :
    lexLT a b = true ↔
      (a.scheduledTime < b.scheduledTime ∨
        (a.scheduledTime = b.scheduledTime ∧ a.createdAt < b.createdAt)) := by
  simp [lexLT]

theorem lexLT_false_iff (a b : ScheduledCall) :
    lexLT a b = false ↔
      (b.scheduledTime < a.scheduledTime ∨
        (b.scheduledTime = a.scheduledTime ∧ b.createdAt ≤ a.createdAt)) := by
  rw [← Bool.not_eq_true, lexLT_iff]
  omega

/-- `findFirst` under the ascending lexicographic order: the first row of
the list among those with the least `(scheduledTime, createdAt)` key. -/
def minLex : List ScheduledCall → Option ScheduledCall
  | [] => none
  | x :: xs =>
    match minLex xs with
    | none => some x
    | some y => if lexLT y x then some y else some x

theorem minLex_eq_none {l : List ScheduledCall} : minLex l = none ↔ l = [] := by
  cases l with
  | nil => simp [minLex]
  | cons x xs =>
    simp only [minLex]
    cases minLex xs with
    | none => simp
    | some y =>
      by_cases h : lexLT y x <;> simp [h]

theorem minLex_mem {l : List ScheduledCall} {y : ScheduledCall}
    (h : minLex l = some y) : y ∈ l := by
  induction l with
  | nil => simp [minLex] at h
  | cons x xs ih =>
    simp only [minLex] at h
    cases hxs : minLex xs with
    | none =>
      rw [hxs] at h
      simp at h
      simp [h]
    | some y' =>
      rw [hxs] at h
      by_cases hlt : lexLT y' x = true
      · simp [hlt] at h
        exact List.mem_cons_of_mem x (ih (h ▸ hxs))
      · simp [hlt] at h
        simp [h]

theorem minLex_min {l : List ScheduledCall} :
    ∀ {y : ScheduledCall}, minLex l = some y → ∀ x ∈ l, lexLT x y = false := by
  induction l with
  | nil => intro y h; simp [minLex] at h
  | cons a as ih =>
    intro y h
    simp only [minLex] at h
    cases has : minLex as with
    | none =>
      have : as = [] := minLex_eq_none.mp has
      subst this
      rw [has] at h
      simp at h
      intro x hx
      simp at hx
      rw [hx, ← h, lexLT_false_iff]
      omega
    | some y' =>
      rw [has] at h
      by_cases hlt : lexLT y' a = true
      · simp [hlt] at h
        intro x hx
        rcases List.mem_cons.mp hx with hxa | hxs
        · rw [hxa, ← h, lexLT_false_iff]
          rw [lexLT_iff] at hlt
          omega
        · exact ih (h ▸ has) x hxs
      · simp [hlt] at h
        intro x hx
        rw [← h]
        rcases List.mem_cons.mp hx with hxa | hxs
        · rw [hxa, lexLT_false_iff]
          omega
        · have h1 := ih has x hxs
          have h2 : lexLT y' a = false := Bool.eq_false_iff.mpr hlt
          rw [lexLT_false_iff] at h1 h2 ⊢
          omega

/-- `findFirst` under `orderBy: \x7b scheduledTime: 'desc' \x7d`: a row with
the greatest `scheduledTime`. -/
def maxByTime : List ScheduledCall → Option ScheduledCall
  | [] => none
  | x :: xs =>
    match maxByTime xs with
    | none => some x
    | some y => if x.scheduledTime < y.scheduledTime then some y else some x

theorem maxByTime_eq_none {l : List ScheduledCall} : maxByTime l = none ↔ l = [] := by
  cases l with
  | nil => simp [maxByTime]
  | cons x xs =>
    simp only [maxByTime]
    cases maxByTime xs with
    | none => simp
    | some y =>
      by_cases h : x.scheduledTime < y.scheduledTime <;> simp [h]

theorem maxByTime_mem {l : List ScheduledCall} {y : ScheduledCall}
    (h : maxByTime l = some y) : y ∈ l := by
  induction l with
  | nil => simp [maxByTime] at h
  | cons x xs ih =>
    simp only [maxByTime] at h
    cases hxs : maxByTime xs with
    | none => rw [hxs] at h; simp at h; simp [h]
    | some y' =>
      rw [hxs] at h
      by_cases hlt : x.scheduledTime < y'.scheduledTime
      · simp [hlt] at h
        exact List.mem_cons_of_mem x (ih (h ▸ hxs))
      · simp [hlt] at h
        simp [h]

theorem maxByTime_max {l : List ScheduledCall} :
    ∀ {y : ScheduledCall}, maxByTime l = some y →
      ∀ x ∈ l, x.scheduledTime ≤ y.scheduledTime := by
  induction l with
  | nil => intro y h; simp [maxByTime] at h
  | cons a as ih =>
    intro y h
    simp only [maxByTime] at h
    cases has : maxByTime as with
    | none =>
      have : as = [] := maxByTime_eq_none.mp has
      subst this
      rw [has] at h
      simp at h
      intro x hx
      simp at hx
      rw [hx, ← h]
    | some y' =>
      rw [has] at h
      by_cases hlt : a.scheduledTime < y'.scheduledTime
      · simp [hlt] at h
        intro x hx
        rcases List.mem_cons.mp hx with hxa | hxs
        · rw [hxa, ← h]
          omega
        · exact ih (h ▸ has) x hxs
      · simp [hlt] at h
        intro x hx
        rw [← h]
        rcases List.mem_cons.mp hx with hxa | hxs
        · rw [hxa]
        · have := ih has x hxs; omega

/-! ### Continuation / Recovery Engine -/

/-- The `whereClause` both continuation call sites build: same organization,
status `PENDING`, and the same `batchId` (`null` when the finished row has
no batch). -/
def continuationWhere (cur r : ScheduledCall) : Bool :=
  decide (r.organizationId = cur.organizationId) &&
    decide (r.status = CallStatus.PENDING) &&
    decide (r.batchId = cur.batchId)

/-- The `findFirst` of both continuation call sites: next pending row of the
batch, ordered by `scheduledTime` ascending then `createdAt` ascending. -/
def nextPendingCall (rows : List ScheduledCall) (cur : ScheduledCall) :
    Option ScheduledCall :=
  minLex (rows.filter (continuationWhere cur))

/-- The Continuation Engine: publish an immediate (no `notBefore`)
trigger-call message for the next pending row, or do nothing. -/
def continuationEngine (rows : List ScheduledCall) (cur : ScheduledCall) :
    List PublishEvent :=
  match nextPendingCall rows cur with
  | some n => [{ scheduledCallId := n.id, notBefore := none }]
  | none => []

/-! ### Dispatch Trigger (`/api/webhooks/qstash/trigger-call` handler) -/

/-- Result of one dispatch-trigger invocation: the store after the run, the
Retell placement requests issued, the QStash messages published, and the
HTTP status returned. -/
structure DispatchResult where
  store : Store
  placements : List RetellPayload
  published : List PublishEvent
  httpStatus : Nat
deriving DecidableEq

namespace QstashTriggerCall

/-- The `retellPayload` object sent to `create-phone-call`. -/
def mkRetellPayload (sc : ScheduledCall) (contact : Contact)
    (env : DispatchEnv) : RetellPayload :=
  { from_number := sc.fromNumber
    to_number := contact.phoneNumber
    override_agent_id := sc.agentId
    retell_llm_dynamic_variables :=
      buildDynamicVariables contact sc.dynamicVariables env }

/-- The inner-catch failure branch of the handler: mark the row `FAILED`
with the error message, then run the daisy-chain recovery (the
Continuation Engine) on the updated store, and return HTTP 200 so QStash
does not re-retry this failed number.  `store1` is the store after the
`IN_PROGRESS` update; `sc` is the row as originally loaded. -/
def failPath (store1 : Store) (sc : ScheduledCall)
    (placements : List RetellPayload) (msg : String) : DispatchResult :=
  let rows2 := updateSC store1.scheduledCalls sc.id
    (fun r => { r with status := CallStatus.FAILED, errorMessage := some msg })
  { store := { store1 with scheduledCalls := rows2 }
    placements := placements
    published := continuationEngine rows2 sc
    httpStatus := 200 }

/-- The trigger-call `handler`: load the row; 404 if absent; no-op 200 if
not `PENDING`; otherwise mark `IN_PROGRESS` (incrementing `attempts`),
place the call, and either complete (recording the Retell call id and a
permanent `Call` record) or fail over to `failPath`. -/
def handler (store : Store) (scheduledCallId : Nat) (env : DispatchEnv) :
    DispatchResult :=
  match findUniqueSC store.scheduledCalls scheduledCallId with
  | none =>
    { store := store, placements := [], published := [], httpStatus := 404 }
  | some sc =>
    if sc.status ≠ CallStatus.PENDING then
      { store := store, placements := [], published := [], httpStatus := 200 }
    else
      let rows1 := updateSC store.scheduledCalls scheduledCallId
        (fun r => { r with status := CallStatus.IN_PROGRESS,
                           attempts := r.attempts + 1 })
      let store1 : Store := { store with scheduledCalls := rows1 }
      match env.retellApiKey with
      | none => failPath store1 sc [] "RETELL_API_KEY not configured"
      | some _ =>
        match store.contacts.find? (fun c => decide (c.id = sc.contactId)) with
        | none => failPath store1 sc [] "contact record missing"
        | some contact =>
          let payload := mkRetellPayload sc contact env
          match env.provider with
          | ProviderResult.transportError m => failPath store1 sc [payload] m
          | ProviderResult.httpError body =>
            failPath store1 sc [payload] ("Retell API error: " ++ body)
          | ProviderResult.ok call_id =>
            let agent := store.agents.find?
              (fun a => decide (a.retellAgentId = sc.agentId))
            let rows2 := updateSC rows1 scheduledCallId
              (fun r => { r with status := CallStatus.COMPLETED,
                                 retellCallId := some call_id,
                                 executedAt := some env.now })
            let newCall : CallRecord :=
              { id := env.newCallRecordId
                organizationId := sc.organizationId
                contactId := sc.contactId
                agentId := agent.map (fun a => a.id)
                retellCallId := call_id
                status := "INITIATED"
                direction := "outbound"
                fromNumber := sc.fromNumber
                toNumber := contact.phoneNumber
                clientPhoneNumber := none
                startedAt := none }
            { store := { store with scheduledCalls := rows2,
                                    calls := store.calls ++ [newCall] }
              placements := [payload]
              published := []
              httpStatus := 200 }

end QstashTriggerCall

/-- The error message the handler stores on a failed dispatch, per failure
kind: missing credentials, non-success provider response, transport error
(`none` when the placement succeeds). -/
def dispatchFailureMsg (env : DispatchEnv) : Option String :=
  match env.retellApiKey with
  | none => some "RETELL_API_KEY not configured"
  | some _ =>
    match env.provider with
    | ProviderResult.ok _ => none
    | ProviderResult.httpError body => some ("Retell API error: " ++ body)
    | ProviderResult.transportError m => some m

/-! ### Provider completion webhook (`/api/webhooks/retell` daisy-chain block) -/

namespace RetellWebhook

/-- The daisy-chain block at the end of the Retell `call_analyzed` webhook:
find the `ScheduledCall` whose `retellCallId` matches the finished call,
and publish the Continuation Engine's registration for the next pending
row of its batch.  It creates no rows and returns only publish events. -/
def chainNextCall (rows : List ScheduledCall) (call_id : String) :
    List PublishEvent :=
  match rows.find? (fun r => decide (r.retellCallId = some call_id)) with
  | some currentScheduledCall => continuationEngine rows currentScheduledCall
  | none => []

end RetellWebhook

/-! ### Batch Planner (`POST /api/scheduled-calls`) -/

namespace ScheduledCallsApi

/-- The 2-minute stagger between consecutive calls of a batch, in ms. -/
def stagger : Int := 2 * 60 * 1000

/-- The 10-minute buffer around a batch, in ms. -/
def batchBuffer : Int := 10 * 60 * 1000

/-- A row counts as active for conflict purposes:
`status: \x7b in: ['PENDING', 'IN_PROGRESS'] \x7d`. -/
def activeStatus (s : CallStatus) : Bool :=
  decide (s = CallStatus.PENDING) || decide (s = CallStatus.IN_PROGRESS)

/-- The conflict query: first active row of the tenant with
`conflictCheckStart < scheduledTime < conflictCheckEnd`, where
`conflictCheckStart = batchStartTime - 12m` and
`conflictCheckEnd = batchEndTime + 10m`. -/
def conflictingCall (rows : List ScheduledCall) (org : Nat)
    (batchStartTime batchEndTime : Int) : Option ScheduledCall :=
  rows.find? (fun r =>
    decide (r.organizationId = org) && activeStatus r.status &&
      decide (batchStartTime - 12 * 60 * 1000 < r.scheduledTime) &&
      decide (r.scheduledTime < batchEndTime + 10 * 60 * 1000))

/-- `findFirst(\x7b where: active, orderBy: \x7b scheduledTime: 'desc' \x7d \x7d)`:
the tenant's latest active scheduled call. -/
def lastScheduledCall (rows : List ScheduledCall) (org : Nat) :
    Option ScheduledCall :=
  maxByTime (rows.filter (fun r =>
    decide (r.organizationId = org) && activeStatus r.status))

/-- The effective batch start: the requested time, or — when the conflict
query finds a row — the tenant's latest active `scheduledTime` plus
12 minutes (2-minute call estimate + 10-minute buffer). -/
def computeEffectiveStart (rows : List ScheduledCall) (org : Nat)
    (requestedStart : Int) (numContacts : Nat) : Int :=
  let batchEndTime := requestedStart + (numContacts : Int) * stagger
  match conflictingCall rows org requestedStart batchEndTime with
  | some _ =>
    match lastScheduledCall rows org with
    | some lastCall => lastCall.scheduledTime + 12 * 60 * 1000
    | none => requestedStart
  | none => requestedStart

/-- Identifiers the environment supplies to one batch-creation request:
the fresh `batchId` (a random UUID), fresh row ids, the clock, and
whether the QStash publish succeeds. -/
structure BatchEnv where
  batchId : Nat
  idBase : Nat
  now : Int
  qstashOk : Bool
deriving DecidableEq

/-- One created `ScheduledCall` row: `PENDING`, the shared fresh batch id,
and `scheduledTime = batchStartTime + index × stagger`. -/
def mkScheduledCall (org : Nat) (fromNumber agentId : String)
    (dynVars : List (String × String)) (benv : BatchEnv)
    (batchStartTime : Int) (i : Nat) (c : Contact) : ScheduledCall :=
  { id := benv.idBase + i
    batchId := some benv.batchId
    organizationId := org
    contactId := c.id
    fromNumber := fromNumber
    agentId := agentId
    scheduledTime := batchStartTime + (i : Int) * stagger
    status := CallStatus.PENDING
    dynamicVariables := dynVars
    retellCallId := none
    callId := none
    attempts := 0
    maxAttempts := 3
    errorMessage := none
    executedAt := none
    createdAt := benv.now }

/-- `contacts.map((contact, index) => ...)` with its running index. -/
def mapIdxFrom {α β : Type} (f : Nat → α → β) : Nat → List α → List β
  | _, [] => []
  | i, x :: xs => f i x :: mapIdxFrom f (i + 1) xs

/-- Result of batch creation: the created rows, the store after appending
them, the QStash registrations issued, and the HTTP status. -/
structure BatchResult where
  scheduledCalls : List ScheduledCall
  store : List ScheduledCall
  published : List PublishEvent
  httpStatus : Nat
deriving DecidableEq

/-- The batch-creation handler body (after tenant/agent validation):
conflict-adjust the start, create one `PENDING` row per contact at
`effectiveStart + index × stagger` under one fresh `batchId`, and publish
a single QStash trigger for the FIRST row only, with
`notBefore = Math.floor(scheduledTime / 1000)` (unix seconds).  A QStash
publish failure is caught and swallowed: rows stay, status stays 201. -/
def POST (rows : List ScheduledCall) (org : Nat) (contacts : List Contact)
    (requestedStart : Int) (fromNumber agentId : String)
    (dynVars : List (String × String)) (benv : BatchEnv) : BatchResult :=
  let batchStartTime := computeEffectiveStart rows org requestedStart contacts.length
  let newRows := mapIdxFrom
    (fun i c => mkScheduledCall org fromNumber agentId dynVars benv batchStartTime i c)
    0 contacts
  let published :=
    match newRows with
    | [] => []
    | first :: _ =>
      if benv.qstashOk then
        [{ scheduledCallId := first.id,
           notBefore := some (Int.fdiv first.scheduledTime 1000) }]
      else []
  { scheduledCalls := newRows
    store := rows ++ newRows
    published := published
    httpStatus := 201 }

theorem mapIdxFrom_length {α β : Type} (f : Nat → α → β) (j : Nat) (l : List α) :
    (mapIdxFrom f j l).length = l.length := by
  induction l generalizing j with
  | nil => rfl
  | cons x xs ih => simp [mapIdxFrom, ih]

theorem mapIdxFrom_get {α β : Type} (f : Nat → α → β) (j i : Nat) (l : List α) :
    (mapIdxFrom f j l)[i]? = (l[i]?).map (f (j + i)) := by
  induction l generalizing j i with
  | nil => simp [mapIdxFrom]
  | cons x xs ih =>
    cases i with
    | zero => simp [mapIdxFrom]
    | succ i' =>
      simp only [mapIdxFrom, List.getElem?_cons_succ, ih (j + 1) i']
      have : j + 1 + i' = j + (i' + 1) := by omega
      rw [this]

end ScheduledCallsApi

/-! ### Cancellation (`DELETE /api/scheduled-calls/[id]`) -/

namespace ScheduledCallCancel

/-- Result of a cancellation request. -/
structure CancelResult where
  scheduledCalls : List ScheduledCall
  httpStatus : Nat
deriving DecidableEq

/-- The DELETE handler: 404 if the row is absent, 403 if it belongs to
another tenant, 400 (`Cannot cancel call with status: ...`) if it is not
`PENDING`, else set `CANCELLED` and return 200. -/
def DELETE (rows : List ScheduledCall) (sessionOrg : Nat) (id : Nat) :
    CancelResult :=
  match findUniqueSC rows id with
  | none => { scheduledCalls := rows, httpStatus := 404 }
  | some scheduledCall =>
    if scheduledCall.organizationId ≠ sessionOrg then
      { scheduledCalls := rows, httpStatus := 403 }
    else if scheduledCall.status ≠ CallStatus.PENDING then
      { scheduledCalls := rows, httpStatus := 400 }
    else
      { scheduledCalls :=
          updateSC rows id (fun r => { r with status := CallStatus.CANCELLED })
        httpStatus := 200 }

end ScheduledCallCancel

/-! ### Legacy polling dispatcher (`POST /api/cron/process-scheduled-calls`) -/

namespace CronProcess

/-- Result of processing one due call in the cron loop body. -/
structure CronResult where
  store : Store
  placements : List RetellPayload
  succeeded : Bool
deriving DecidableEq

/-- The catch branch of the cron loop body: retry while the PRE-increment
`attempts` is below `maxAttempts` (set back to `PENDING`), else `FAILED`;
either way store the error message.  `store1` is the store after the
`IN_PROGRESS` update; `scheduledCall` the row as loaded by the due query. -/
def failPath (store1 : Store) (scheduledCall : ScheduledCall)
    (placements : List RetellPayload) (msg : String) : CronResult :=
  let shouldRetry := scheduledCall.attempts < scheduledCall.maxAttempts
  let rows2 := updateSC store1.scheduledCalls scheduledCall.id
    (fun r => { r with
      status := if shouldRetry then CallStatus.PENDING else CallStatus.FAILED,
      errorMessage := some msg })
  { store := { store1 with scheduledCalls := rows2 }
    placements := placements
    succeeded := false }

/-- One iteration of the cron dispatcher's loop over due `PENDING` rows:
mark `IN_PROGRESS` with `attempts := scheduledCall.attempts + 1`, place
the call (with the greeting among the variables), and on success create
the `Call` record and complete the row; on failure run `failPath`. -/
def processOne (store : Store) (scheduledCall : ScheduledCall)
    (env : DispatchEnv) : CronResult :=
  let rows1 := updateSC store.scheduledCalls scheduledCall.id
    (fun r => { r with status := CallStatus.IN_PROGRESS,
                       attempts := scheduledCall.attempts + 1 })
  let store1 : Store := { store with scheduledCalls := rows1 }
  match env.retellApiKey with
  | none => failPath store1 scheduledCall [] "RETELL_API_KEY not configured"
  | some _ =>
    match store.contacts.find? (fun c => decide (c.id = scheduledCall.contactId)) with
    | none => failPath store1 scheduledCall [] "contact record missing"
    | some contact =>
      let payload : RetellPayload :=
        { from_number := scheduledCall.fromNumber
          to_number := contact.phoneNumber
          override_agent_id := scheduledCall.agentId
          retell_llm_dynamic_variables :=
            buildDynamicVariablesCron contact scheduledCall.dynamicVariables env }
      match env.provider with
      | ProviderResult.transportError m =>
        failPath store1 scheduledCall [payload] m
      | ProviderResult.httpError body =>
        failPath store1 scheduledCall [payload] ("Retell API error: " ++ body)
      | ProviderResult.ok call_id =>
        let agent := store.agents.find?
          (fun a => decide (a.retellAgentId = scheduledCall.agentId))
        let newCall : CallRecord :=
          { id := env.newCallRecordId
            organizationId := scheduledCall.organizationId
            contactId := contact.id
            agentId := agent.map (fun a => a.id)
            retellCallId := call_id
            status := "INITIATED"
            direction := "outbound"
            fromNumber := scheduledCall.fromNumber
            toNumber := contact.phoneNumber
            clientPhoneNumber := some contact.phoneNumber
            startedAt := some env.now }
        let rows2 := updateSC rows1 scheduledCall.id
          (fun r => { r with status := CallStatus.COMPLETED,
                             retellCallId := some call_id,
                             callId := some env.newCallRecordId,
                             executedAt := some env.now })
        { store := { store with scheduledCalls := rows2,
                                calls := store.calls ++ [newCall] }
          placements := [payload]
          succeeded := true }

end CronProcess

/-! ### Helper lemmas about the dispatch handler -/

theorem findUniqueSC_id {rows : List ScheduledCall} {id : Nat}
    {sc : ScheduledCall} (h : findUniqueSC rows id = some sc) : sc.id = id := by
  have := List.find?_some h
  simpa using this

theorem failPath_marks_failed (store1 : Store) (sc : ScheduledCall)
    (pl : List RetellPayload) (msg : String) :
    ∀ r ∈ (QstashTriggerCall.failPath store1 sc pl msg).store.scheduledCalls,
      r.id = sc.id → r.status = CallStatus.FAILED ∧ r.errorMessage = some msg := by
  intro r hr hid
  simp only [QstashTriggerCall.failPath] at hr
  obtain ⟨x, hx, hrx⟩ := mem_updateSC hr
  by_cases h : x.id = sc.id
  · rw [if_pos h] at hrx
    subst hrx
    exact ⟨rfl, rfl⟩
  · rw [if_neg h] at hrx
    subst hrx
    exact absurd hid h

theorem failPath_length (store1 : Store) (sc : ScheduledCall)
    (pl : List RetellPayload) (msg : String) :
    (QstashTriggerCall.failPath store1 sc pl msg).store.scheduledCalls.length =
      store1.scheduledCalls.length := by
  simp [QstashTriggerCall.failPath, length_updateSC]

/-! ### Sample data used by the witness instantiations -/

def sampleContact : Contact :=
  { id := 1, organizationId := 1, name := "Ada", phoneNumber := "+61400000001",
    email := none, businessName := none, businessWebsite := none,
    customFields := [] }

def sampleContact2 : Contact :=
  { id := 2, organizationId := 1, name := "Ben", phoneNumber := "+61400000002",
    email := none, businessName := none, businessWebsite := none,
    customFields := [] }

def sampleCall : ScheduledCall :=
  { id := 1, batchId := some 7, organizationId := 1, contactId := 1,
    fromNumber := "+61200000000", agentId := "agent_1", scheduledTime := 1000,
    status := CallStatus.PENDING, dynamicVariables := [], retellCallId := none,
    callId := none, attempts := 0, maxAttempts := 3, errorMessage := none,
    executedAt := none, createdAt := 0 }

def sampleCall2 : ScheduledCall :=
  { sampleCall with id := 2, contactId := 2, scheduledTime := 121000,
                    createdAt := 1 }

def sampleStore : Store :=
  { scheduledCalls := [sampleCall, sampleCall2],
    contacts := [sampleContact, sampleContact2], agents := [], calls := [] }

def envNoKey : DispatchEnv :=
  { retellApiKey := none, provider := ProviderResult.httpError "x", now := 5000,
    currentDate := "01 January 2026", currentTime := "09:00", hour := 9,
    newCallRecordId := 1 }

def envOk : DispatchEnv :=
  { envNoKey with retellApiKey := some "k",
                  provider := ProviderResult.ok "call_abc" }

/-! ### Claim C1 -/

/-- C1: on a dispatch-trigger invocation for a `PENDING` row whose placement
fails (missing credentials, non-success provider response, or transport
error), the handler marks that row `FAILED` with the failure detail as
`errorMessage`, synchronously runs the Continuation Engine for that row on
the updated store, creates no rows, and still answers HTTP 200 so the
delivery mechanism does not re-retry the dial failure. -/
theorem C1_dispatch_failure_records_and_continues
    (store : Store) (id : Nat) (env : DispatchEnv) (sc : ScheduledCall)
    (contact : Contact) (msg : String)
    (hfind : findUniqueSC store.scheduledCalls id = some sc)
    (hpend : sc.status = CallStatus.PENDING)
    (hcontact : store.contacts.find? (fun c => decide (c.id = sc.contactId)) =
      some contact)
    (hfail : dispatchFailureMsg env = some msg) :
    (QstashTriggerCall.handler store id env).httpStatus = 200 ∧
    (∀ r ∈ (QstashTriggerCall.handler store id env).store.scheduledCalls,
        r.id = id → r.status = CallStatus.FAILED ∧ r.errorMessage = some msg) ∧
    (QstashTriggerCall.handler store id env).published =
      continuationEngine
        (QstashTriggerCall.handler store id env).store.scheduledCalls sc ∧
    (QstashTriggerCall.handler store id env).store.scheduledCalls.length =
      store.scheduledCalls.length := by
  have hid : sc.id = id := findUniqueSC_id hfind
  have hfp : ∀ (store1 : Store) (pl : List RetellPayload),
      store1.scheduledCalls.length = store.scheduledCalls.length →
      ((QstashTriggerCall.failPath store1 sc pl msg).httpStatus = 200 ∧
       (∀ r ∈ (QstashTriggerCall.failPath store1 sc pl msg).store.scheduledCalls,
          r.id = id → r.status = CallStatus.FAILED ∧ r.errorMessage = some msg) ∧
       (QstashTriggerCall.failPath store1 sc pl msg).published =
         continuationEngine
           (QstashTriggerCall.failPath store1 sc pl msg).store.scheduledCalls sc ∧
       (QstashTriggerCall.failPath store1 sc pl msg).store.scheduledCalls.length =
         store.scheduledCalls.length) := by
    intro store1 pl hlen
    refine ⟨rfl, ?_, rfl, (failPath_length store1 sc pl msg).trans hlen⟩
    intro r hr hrid
    exact failPath_marks_failed store1 sc pl msg r hr (hrid.trans hid.symm)
  have hlen1 : (updateSC store.scheduledCalls id
      (fun r => { r with status := CallStatus.IN_PROGRESS,
                         attempts := r.attempts + 1 })).length =
      store.scheduledCalls.length := length_updateSC _ _ _
  cases hk : env.retellApiKey with
  | none =>
    have hmsg : msg = "RETELL_API_KEY not configured" := by
      simp [dispatchFailureMsg, hk] at hfail
      exact hfail.symm
    subst hmsg
    simp only [QstashTriggerCall.handler, hfind, hpend, hk, ne_eq,
      not_true_eq_false, if_false]
    exact hfp _ [] hlen1
  | some key =>
    cases hp : env.provider with
    | ok call_id =>
      rw [dispatchFailureMsg, hk, hp] at hfail
      simp at hfail
    | httpError body =>
      have hmsg : msg = "Retell API error: " ++ body := by
        simp [dispatchFailureMsg, hk, hp] at hfail
        exact hfail.symm
      subst hmsg
      simp only [QstashTriggerCall.handler, hfind, hpend, hk, hcontact, hp,
        ne_eq, not_true_eq_false, if_false]
      exact hfp _ _ hlen1
    | transportError m =>
      have hmsg : msg = m := by
        simp [dispatchFailureMsg, hk, hp] at hfail
        exact hfail.symm
      subst hmsg
      simp only [QstashTriggerCall.handler, hfind, hpend, hk, hcontact, hp,
        ne_eq, not_true_eq_false, if_false]
      exact hfp _ _ hlen1

/-- Witness for C1 at a concrete store: dispatching row 1 with missing
provider credentials yields HTTP 200, a `FAILED` row, and the
continuation registration. -/
theorem C1_witness :
    (QstashTriggerCall.handler sampleStore 1 envNoKey).httpStatus = 200 ∧
    (∀ r ∈ (QstashTriggerCall.handler sampleStore 1 envNoKey).store.scheduledCalls,
        r.id = 1 → r.status = CallStatus.FAILED ∧
          r.errorMessage = some "RETELL_API_KEY not configured") ∧
    (QstashTriggerCall.handler sampleStore 1 envNoKey).published =
      continuationEngine
        (QstashTriggerCall.handler sampleStore 1 envNoKey).store.scheduledCalls
        sampleCall ∧
    (QstashTriggerCall.handler sampleStore 1 envNoKey).store.scheduledCalls.length =
      sampleStore.scheduledCalls.length :=
  C1_dispatch_failure_records_and_continues sampleStore 1 envNoKey sampleCall
    sampleContact "RETELL_API_KEY not configured" (by decide) (by decide)
    (by decide) (by decide)

/-! ### Claim C2 -/

theorem continuationWhere_iff (cur r : ScheduledCall) :
    continuationWhere cur r = true ↔
      (r.organizationId = cur.organizationId ∧
        r.status = CallStatus.PENDING ∧ r.batchId = cur.batchId) := by
  simp [continuationWhere, and_assoc]

/-- Modelled from the spec words (claim C2): the rows eligible as "next":
`PENDING` with the same `batchId`, where for legacy null-batch rows the
organization must also match. -/
def specNextEligible (cur r : ScheduledCall) : Prop :=
  r.status = CallStatus.PENDING ∧ r.batchId = cur.batchId ∧
    (cur.batchId = none → r.organizationId = cur.organizationId)

/-- C2: given a just-finished row, the Continuation Engine selects the first
`PENDING` row with the same `batchId` (same organization and null batch for
legacy rows), minimal under `scheduledTime` then creation time, and
registers exactly it for immediate firing (`notBefore = none`); when no such
row exists it publishes nothing.  The coherence hypothesis states that rows
sharing a (non-null) `batchId` belong to the same organization, which holds
of every reachable store since each batch id is freshly generated for one
tenant's batch. -/
theorem C2_continuation_selects_first_pending
    (rows : List ScheduledCall) (cur : ScheduledCall)
    (hcoh : ∀ r ∈ rows, r.batchId = cur.batchId → cur.batchId ≠ none →
      r.organizationId = cur.organizationId) :
    (∀ n, nextPendingCall rows cur = some n →
        n ∈ rows ∧ specNextEligible cur n ∧
        (∀ r ∈ rows, specNextEligible cur r → lexLT r n = false) ∧
        continuationEngine rows cur =
          [{ scheduledCallId := n.id, notBefore := none }]) ∧
    (nextPendingCall rows cur = none →
        continuationEngine rows cur = [] ∧
        ∀ r ∈ rows, ¬ specNextEligible cur r) := by
  have eligibleWhere : ∀ r ∈ rows, specNextEligible cur r →
      continuationWhere cur r = true := by
    intro r hr hel
    rw [continuationWhere_iff]
    refine ⟨?_, hel.1, hel.2.1⟩
    cases hb : cur.batchId with
    | none => exact hel.2.2 hb
    | some b => exact hcoh r hr hel.2.1 (by simp [hb])
  constructor
  · intro n hn
    have hmem := minLex_mem hn
    rw [List.mem_filter] at hmem
    have hW := (continuationWhere_iff cur n).mp hmem.2
    refine ⟨hmem.1, ⟨hW.2.1, hW.2.2, fun _ => hW.1⟩, ?_, ?_⟩
    · intro r hr hel
      exact minLex_min hn r
        (List.mem_filter.mpr ⟨hr, eligibleWhere r hr hel⟩)
    · simp [continuationEngine, nextPendingCall] at hn ⊢
      rw [hn]
  · intro hn
    refine ⟨by simp [continuationEngine, hn], ?_⟩
    intro r hr hel
    have hempty : rows.filter (continuationWhere cur) = [] :=
      minLex_eq_none.mp hn
    have : r ∈ rows.filter (continuationWhere cur) :=
      List.mem_filter.mpr ⟨hr, eligibleWhere r hr hel⟩
    rw [hempty] at this
    simp at this

/-- The finished row handed to the Continuation Engine in C2's witness. -/
def c2cur : ScheduledCall :=
  { sampleCall with id := 0, status := CallStatus.FAILED, scheduledTime := 0 }

/-- Witness for C2: for a finished row of batch 7, the engine selects row 1
(earliest `scheduledTime`) and publishes exactly one immediate trigger. -/
theorem C2_witness :
    sampleCall ∈ [sampleCall, sampleCall2] ∧
    specNextEligible c2cur sampleCall ∧
    (∀ r ∈ [sampleCall, sampleCall2], specNextEligible c2cur r →
      lexLT r sampleCall = false) ∧
    continuationEngine [sampleCall, sampleCall2] c2cur =
      [{ scheduledCallId := sampleCall.id, notBefore := none }] :=
  (C2_continuation_selects_first_pending [sampleCall, sampleCall2] c2cur
    (by decide)).1 sampleCall (by decide)

/-! ### Claim C3 -/

/-- C3: a batch-creation request for N contacts with no conflicting active
batch creates exactly N rows, all `PENDING` under one fresh `batchId`, with
`scheduledTime = effectiveStart + index × stagger` (the effective start
being the requested start), and issues exactly one delayed-trigger
registration — for the first row, with `notBefore` equal to that row's
`scheduledTime` in unix seconds. -/
theorem C3_batch_creates_staggered_rows
    (rows : List ScheduledCall) (org : Nat) (contacts : List Contact)
    (requestedStart : Int) (fromNumber agentId : String)
    (dynVars : List (String × String)) (benv : ScheduledCallsApi.BatchEnv)
    (hne : contacts ≠ [])
    (hnoconf : ScheduledCallsApi.conflictingCall rows org requestedStart
      (requestedStart + (contacts.length : Int) * ScheduledCallsApi.stagger) =
      none)
    (hq : benv.qstashOk = true) :
    (ScheduledCallsApi.POST rows org contacts requestedStart fromNumber
        agentId dynVars benv).scheduledCalls.length = contacts.length ∧
    (∀ (i : Nat) (c : Contact), contacts[i]? = some c →
      ∃ r, (ScheduledCallsApi.POST rows org contacts requestedStart fromNumber
          agentId dynVars benv).scheduledCalls[i]? = some r ∧
        r.status = CallStatus.PENDING ∧ r.batchId = some benv.batchId ∧
        r.scheduledTime =
          requestedStart + (i : Int) * ScheduledCallsApi.stagger ∧
        r.contactId = c.id) ∧
    (ScheduledCallsApi.POST rows org contacts requestedStart fromNumber
        agentId dynVars benv).published =
      [{ scheduledCallId := benv.idBase,
         notBefore := some (Int.fdiv requestedStart 1000) }] := by
  have hstart : ScheduledCallsApi.computeEffectiveStart rows org requestedStart
      contacts.length = requestedStart := by
    simp only [ScheduledCallsApi.computeEffectiveStart, hnoconf]
  refine ⟨?_, ?_, ?_⟩
  · simp [ScheduledCallsApi.POST, ScheduledCallsApi.mapIdxFrom_length]
  · intro i c hc
    refine ⟨ScheduledCallsApi.mkScheduledCall org fromNumber agentId dynVars
      benv (ScheduledCallsApi.computeEffectiveStart rows org requestedStart
        contacts.length) i c, ?_, rfl, rfl, ?_, rfl⟩
    · simp only [ScheduledCallsApi.POST]
      rw [ScheduledCallsApi.mapIdxFrom_get]
      simp [hc]
    · simp [ScheduledCallsApi.mkScheduledCall, hstart]
  · obtain ⟨c0, cs, rfl⟩ : ∃ c0 cs, contacts = c0 :: cs := by
      cases contacts with
      | nil => exact absurd rfl hne
      | cons a l => exact ⟨a, l, rfl⟩
    have hstart2 : ScheduledCallsApi.computeEffectiveStart rows org
        requestedStart (cs.length + 1) = requestedStart := by
      simpa using hstart
    simp [ScheduledCallsApi.POST, ScheduledCallsApi.mapIdxFrom, hq, hstart2,
      ScheduledCallsApi.mkScheduledCall]

/-- Batch environment for the C3 witness. -/
def batchEnvSample : ScheduledCallsApi.BatchEnv :=
  { batchId := 7, idBase := 1, now := 0, qstashOk := true }

/-- Witness for C3: two contacts on an empty store create two `PENDING`
rows 2 minutes apart and publish one trigger for the first row. -/
theorem C3_witness :
    (ScheduledCallsApi.POST [] 1 [sampleContact, sampleContact2] 1000000
        "+612" "agent_1" [] batchEnvSample).scheduledCalls.length =
      [sampleContact, sampleContact2].length ∧
    (∀ (i : Nat) (c : Contact), [sampleContact, sampleContact2][i]? = some c →
      ∃ r, (ScheduledCallsApi.POST [] 1 [sampleContact, sampleContact2]
          1000000 "+612" "agent_1" [] batchEnvSample).scheduledCalls[i]? =
          some r ∧
        r.status = CallStatus.PENDING ∧
        r.batchId = some batchEnvSample.batchId ∧
        r.scheduledTime = 1000000 + (i : Int) * ScheduledCallsApi.stagger ∧
        r.contactId = c.id) ∧
    (ScheduledCallsApi.POST [] 1 [sampleContact, sampleContact2] 1000000
        "+612" "agent_1" [] batchEnvSample).published =
      [{ scheduledCallId := batchEnvSample.idBase,
         notBefore := some (Int.fdiv 1000000 1000) }] :=
  C3_batch_creates_staggered_rows [] 1 [sampleContact, sampleContact2]
    1000000 "+612" "agent_1" [] batchEnvSample (by decide) (by decide) rfl

/-! ### Claim C4 -/

/-- A dispatch-trigger invocation on a row that is no longer `PENDING` is a
pure no-op answered with HTTP 200. -/
theorem handler_noop (store : Store) (id : Nat) (env : DispatchEnv)
    (sc : ScheduledCall)
    (hfind : findUniqueSC store.scheduledCalls id = some sc)
    (hst : sc.status ≠ CallStatus.PENDING) :
    QstashTriggerCall.handler store id env =
      { store := store, placements := [], published := [],
        httpStatus := 200 } := by
  simp only [QstashTriggerCall.handler, hfind]
  rw [if_pos hst]

/-- The store after the handler's initial `IN_PROGRESS` + attempts
increment update (proof abbreviation). -/
def inProgressStore (store : Store) (id : Nat) : Store :=
  let rows1 := updateSC store.scheduledCalls id
    (fun r => { r with status := CallStatus.IN_PROGRESS,
                       attempts := r.attempts + 1 })
  { store with scheduledCalls := rows1 }

theorem failPath_find (store1 : Store) (sc : ScheduledCall)
    (pl : List RetellPayload) (msg : String) (sc1 : ScheduledCall)
    (hfind1 : findUniqueSC store1.scheduledCalls sc.id = some sc1) :
    findUniqueSC
        (QstashTriggerCall.failPath store1 sc pl msg).store.scheduledCalls
        sc.id =
      some { sc1 with status := CallStatus.FAILED,
                      errorMessage := some msg } := by
  simp only [QstashTriggerCall.failPath]
  rw [findUniqueSC_updateSC]
  · rw [hfind1]
    rfl
  · intro r
    rfl

/-- After a failure path run, the touched row is terminal and any further
dispatch of the same id is a no-op. -/
theorem failPath_terminal_noop (store1 : Store) (sc sc1 : ScheduledCall)
    (id : Nat) (pl : List RetellPayload) (msg : String)
    (hid : sc.id = id)
    (hfind1 : findUniqueSC store1.scheduledCalls id = some sc1) :
    (∀ r ∈ (QstashTriggerCall.failPath store1 sc pl msg).store.scheduledCalls,
        r.id = id →
          r.status = CallStatus.COMPLETED ∨ r.status = CallStatus.FAILED) ∧
    (∀ env2 : DispatchEnv,
      QstashTriggerCall.handler
          (QstashTriggerCall.failPath store1 sc pl msg).store id env2 =
        { store := (QstashTriggerCall.failPath store1 sc pl msg).store,
          placements := [], published := [], httpStatus := 200 }) := by
  constructor
  · intro r hr hrid
    exact Or.inr
      (failPath_marks_failed store1 sc pl msg r hr (hrid.trans hid.symm)).1
  · intro env2
    have hf2 : findUniqueSC
        (QstashTriggerCall.failPath store1 sc pl msg).store.scheduledCalls id =
        some { sc1 with status := CallStatus.FAILED,
                        errorMessage := some msg } := by
      rw [← hid]
      exact failPath_find store1 sc pl msg sc1 (by rw [hid]; exact hfind1)
    exact handler_noop _ id env2 _ hf2 (by simp)

/-- C4: dispatching a `PENDING` row (with provider credentials configured)
issues exactly one placement request and leaves the row in a terminal
status; a duplicate dispatch of the same row afterwards is a no-op success:
it changes nothing, places no call, publishes nothing, and returns 200. -/
theorem C4_duplicate_dispatch_is_noop
    (store : Store) (id : Nat) (env : DispatchEnv) (sc : ScheduledCall)
    (contact : Contact) (key : String)
    (hfind : findUniqueSC store.scheduledCalls id = some sc)
    (hpend : sc.status = CallStatus.PENDING)
    (hcontact : store.contacts.find? (fun c => decide (c.id = sc.contactId)) =
      some contact)
    (hkey : env.retellApiKey = some key) :
    (QstashTriggerCall.handler store id env).placements.length = 1 ∧
    (∀ r ∈ (QstashTriggerCall.handler store id env).store.scheduledCalls,
        r.id = id →
          r.status = CallStatus.COMPLETED ∨ r.status = CallStatus.FAILED) ∧
    (∀ env2 : DispatchEnv,
      QstashTriggerCall.handler
          (QstashTriggerCall.handler store id env).store id env2 =
        { store := (QstashTriggerCall.handler store id env).store,
          placements := [], published := [], httpStatus := 200 }) := by
  have hid : sc.id = id := findUniqueSC_id hfind
  have hfind1 : findUniqueSC (updateSC store.scheduledCalls id
      (fun r => { r with status := CallStatus.IN_PROGRESS,
                         attempts := r.attempts + 1 })) id =
      some { sc with status := CallStatus.IN_PROGRESS,
                     attempts := sc.attempts + 1 } := by
    rw [findUniqueSC_updateSC]
    · rw [hfind]
      rfl
    · intro r
      rfl
  cases hp : env.provider with
  | ok call_id =>
    simp only [QstashTriggerCall.handler, hfind, hpend, hkey, hcontact, hp,
      ne_eq, not_true_eq_false, if_false]
    refine ⟨rfl, ?_, ?_⟩
    · intro r hr hrid
      obtain ⟨x, hx, hrx⟩ := mem_updateSC hr
      by_cases h : x.id = id
      · rw [if_pos h] at hrx
        subst hrx
        exact Or.inl rfl
      · rw [if_neg h] at hrx
        subst hrx
        exact absurd hrid h
    · intro env2
      have hfind2 : findUniqueSC (updateSC (updateSC store.scheduledCalls id
          (fun r => { r with status := CallStatus.IN_PROGRESS,
                             attempts := r.attempts + 1 })) id
          (fun r => { r with status := CallStatus.COMPLETED,
                             retellCallId := some call_id,
                             executedAt := some env.now })) id =
          some { sc with status := CallStatus.COMPLETED,
                         retellCallId := some call_id,
                         executedAt := some env.now,
                         attempts := sc.attempts + 1 } := by
        rw [findUniqueSC_updateSC]
        · rw [hfind1]
          rfl
        · intro r
          rfl
      simp [hfind2]
  | httpError body =>
    have hred : QstashTriggerCall.handler store id env =
        QstashTriggerCall.failPath (inProgressStore store id) sc
          [QstashTriggerCall.mkRetellPayload sc contact env]
          ("Retell API error: " ++ body) := by
      simp only [QstashTriggerCall.handler, hfind, hpend, hkey, hcontact, hp,
        ne_eq, not_true_eq_false, if_false]
      rfl
    rw [hred]
    have h := failPath_terminal_noop (inProgressStore store id) sc _ id
      [QstashTriggerCall.mkRetellPayload sc contact env]
      ("Retell API error: " ++ body) hid hfind1
    exact ⟨rfl, h.1, h.2⟩
  | transportError m =>
    have hred : QstashTriggerCall.handler store id env =
        QstashTriggerCall.failPath (inProgressStore store id) sc
          [QstashTriggerCall.mkRetellPayload sc contact env] m := by
      simp only [QstashTriggerCall.handler, hfind, hpend, hkey, hcontact, hp,
        ne_eq, not_true_eq_false, if_false]
      rfl
    rw [hred]
    have h := failPath_terminal_noop (inProgressStore store id) sc _ id
      [QstashTriggerCall.mkRetellPayload sc contact env] m hid hfind1
    exact ⟨rfl, h.1, h.2⟩

/-- Witness for C4: dispatching row 1 of the sample store with a successful
provider response, then dispatching it again, yields one placement and a
no-op second run. -/
theorem C4_witness :
    (QstashTriggerCall.handler sampleStore 1 envOk).placements.length = 1 ∧
    (∀ r ∈ (QstashTriggerCall.handler sampleStore 1 envOk).store.scheduledCalls,
        r.id = 1 →
          r.status = CallStatus.COMPLETED ∨ r.status = CallStatus.FAILED) ∧
    (∀ env2 : DispatchEnv,
      QstashTriggerCall.handler
          (QstashTriggerCall.handler sampleStore 1 envOk).store 1 env2 =
        { store := (QstashTriggerCall.handler sampleStore 1 envOk).store,
          placements := [], published := [], httpStatus := 200 }) :=
  C4_duplicate_dispatch_is_noop sampleStore 1 envOk sampleCall sampleContact
    "k" (by decide) (by decide) (by decide) rfl

/-! ### Claim C5 -/

/-- C5: a successful dispatch publishes NO continuation registration (the
success branch returns without touching QStash), completes the row while
recording the provider call reference, and the next row of the batch is
registered only by the provider completion webhook, whose daisy-chain block
invokes the Continuation Engine for the row matching that reference. -/
theorem C5_success_does_not_chain
    (store : Store) (id : Nat) (env : DispatchEnv) (sc : ScheduledCall)
    (contact : Contact) (key call_id : String)
    (hfind : findUniqueSC store.scheduledCalls id = some sc)
    (hpend : sc.status = CallStatus.PENDING)
    (hcontact : store.contacts.find? (fun c => decide (c.id = sc.contactId)) =
      some contact)
    (hkey : env.retellApiKey = some key)
    (hok : env.provider = ProviderResult.ok call_id) :
    (QstashTriggerCall.handler store id env).published = [] ∧
    (∀ r ∈ (QstashTriggerCall.handler store id env).store.scheduledCalls,
        r.id = id →
          r.status = CallStatus.COMPLETED ∧ r.retellCallId = some call_id) ∧
    (∀ (rows : List ScheduledCall) (cur : ScheduledCall),
      rows.find? (fun r => decide (r.retellCallId = some call_id)) = some cur →
        RetellWebhook.chainNextCall rows call_id =
          continuationEngine rows cur) := by
  simp only [QstashTriggerCall.handler, hfind, hpend, hkey, hcontact, hok,
    ne_eq, not_true_eq_false, if_false]
  refine ⟨?_, ?_, ?_⟩
  · trivial
  · intro r hr hrid
    obtain ⟨x, hx, hrx⟩ := mem_updateSC hr
    by_cases h : x.id = id
    · rw [if_pos h] at hrx
      subst hrx
      exact ⟨rfl, rfl⟩
    · rw [if_neg h] at hrx
      subst hrx
      exact absurd hrid h
  · intro rows cur hcur
    simp [RetellWebhook.chainNextCall, hcur]

/-- Witness for C5: a successful dispatch of row 1 publishes nothing and
completes the row; the webhook chain block for the recorded reference runs
the Continuation Engine. -/
theorem C5_witness :
    (QstashTriggerCall.handler sampleStore 1 envOk).published = [] ∧
    (∀ r ∈ (QstashTriggerCall.handler sampleStore 1 envOk).store.scheduledCalls,
        r.id = 1 →
          r.status = CallStatus.COMPLETED ∧
            r.retellCallId = some "call_abc") ∧
    (∀ (rows : List ScheduledCall) (cur : ScheduledCall),
      rows.find? (fun r => decide (r.retellCallId = some "call_abc")) =
        some cur →
        RetellWebhook.chainNextCall rows "call_abc" =
          continuationEngine rows cur) :=
  C5_success_does_not_chain sampleStore 1 envOk sampleCall sampleContact
    "k" "call_abc" (by decide) (by decide) (by decide) rfl rfl

/-! ### Claim C6 -/

/-- A conflicting active row for C6: `PENDING`, organization 1,
scheduled at t = 1000000 ms. -/
def c6row : ScheduledCall := { sampleCall with scheduledTime := 1000000 }

/-- Counterexample to C6 as stated: with one active row at t = 1000000 and
a conflicting request at the same time, the effective start is EQUAL to the
latest active `scheduledTime` plus 12 minutes, not strictly greater. -/
theorem C6_counterexample :
    (ScheduledCallsApi.conflictingCall [c6row] 1 1000000
      (1000000 + (1 : Int) * ScheduledCallsApi.stagger)).isSome = true ∧
    ScheduledCallsApi.computeEffectiveStart [c6row] 1 1000000 1 =
      c6row.scheduledTime + 12 * 60 * 1000 ∧
    ¬ (ScheduledCallsApi.computeEffectiveStart [c6row] 1 1000000 1 >
        c6row.scheduledTime + 12 * 60 * 1000) := by
  decide

/-- C6 (amended): when the conflict query finds a row inside the new
batch's conflict window, the effective start EQUALS the tenant's latest
active `scheduledTime` plus `stagger + buffer` = 12 minutes (hence is at
least, but not strictly greater than, `latest + 12 minutes`). -/
theorem C6_amended_effective_start_is_latest_plus_gap
    (rows : List ScheduledCall) (org : Nat) (requestedStart : Int) (n : Nat)
    (hconf : (ScheduledCallsApi.conflictingCall rows org requestedStart
      (requestedStart + (n : Int) * ScheduledCallsApi.stagger)).isSome =
      true) :
    ∃ l, ScheduledCallsApi.lastScheduledCall rows org = some l ∧
      ScheduledCallsApi.computeEffectiveStart rows org requestedStart n =
        l.scheduledTime + 12 * 60 * 1000 ∧
      ∀ r ∈ rows, r.organizationId = org →
        ScheduledCallsApi.activeStatus r.status = true →
        r.scheduledTime ≤ l.scheduledTime := by
  obtain ⟨c, hc⟩ := Option.isSome_iff_exists.mp hconf
  have hcmem : c ∈ rows := List.mem_of_find?_eq_some hc
  have hcprop := List.find?_some hc
  simp only [Bool.and_eq_true, decide_eq_true_eq] at hcprop
  have hcfilter : c ∈ rows.filter (fun r =>
      decide (r.organizationId = org) && ScheduledCallsApi.activeStatus
        r.status) :=
    List.mem_filter.mpr ⟨hcmem, by
      simp [hcprop.1.1.1, hcprop.1.1.2]⟩
  cases hl : maxByTime (rows.filter (fun r =>
      decide (r.organizationId = org) && ScheduledCallsApi.activeStatus
        r.status)) with
  | none =>
    rw [maxByTime_eq_none.mp hl] at hcfilter
    simp at hcfilter
  | some l =>
    refine ⟨l, ?_, ?_, ?_⟩
    · simp [ScheduledCallsApi.lastScheduledCall, hl]
    · simp only [ScheduledCallsApi.computeEffectiveStart, hc,
        ScheduledCallsApi.lastScheduledCall, hl]
    · intro r hr horg hact
      exact maxByTime_max hl r (List.mem_filter.mpr ⟨hr, by simp [horg, hact]⟩)

/-- Witness for the amended C6 at the counterexample store. -/
theorem C6_amended_witness :
    ∃ l, ScheduledCallsApi.lastScheduledCall [c6row] 1 = some l ∧
      ScheduledCallsApi.computeEffectiveStart [c6row] 1 1000000 1 =
        l.scheduledTime + 12 * 60 * 1000 ∧
      ∀ r ∈ [c6row], r.organizationId = 1 →
        ScheduledCallsApi.activeStatus r.status = true →
        r.scheduledTime ≤ l.scheduledTime :=
  C6_amended_effective_start_is_latest_plus_gap [c6row] 1 1000000 1 (by decide)

/-! ### Claim C7 -/

/-- C7: cancelling a `PENDING` row succeeds (HTTP 200) and sets it
`CANCELLED`, leaving every other row untouched; cancelling a row in any
other status fails with the invalid-state error (HTTP 400) and leaves the
store completely unchanged. -/
theorem C7_cancel_only_pending
    (rows : List ScheduledCall) (org id : Nat) (sc : ScheduledCall)
    (hfind : findUniqueSC rows id = some sc)
    (horg : sc.organizationId = org) :
    (sc.status = CallStatus.PENDING →
      (ScheduledCallCancel.DELETE rows org id).httpStatus = 200 ∧
      (∀ r ∈ (ScheduledCallCancel.DELETE rows org id).scheduledCalls,
        (r.id = id → r.status = CallStatus.CANCELLED) ∧
        (r.id ≠ id → r ∈ rows))) ∧
    (sc.status ≠ CallStatus.PENDING →
      (ScheduledCallCancel.DELETE rows org id).httpStatus = 400 ∧
      (ScheduledCallCancel.DELETE rows org id).scheduledCalls = rows) := by
  simp only [ScheduledCallCancel.DELETE, hfind]
  rw [if_neg (by simp [horg])]
  constructor
  · intro hp
    rw [if_neg (by simp [hp])]
    refine ⟨rfl, ?_⟩
    intro r hr
    obtain ⟨x, hx, hrx⟩ := mem_updateSC hr
    constructor
    · intro hrid
      by_cases h : x.id = id
      · rw [if_pos h] at hrx
        subst hrx
        rfl
      · rw [if_neg h] at hrx
        subst hrx
        exact absurd hrid h
    · intro hrid
      by_cases h : x.id = id
      · rw [if_pos h] at hrx
        subst hrx
        exact absurd h hrid
      · rw [if_neg h] at hrx
        subst hrx
        exact hx
  · intro hnp
    rw [if_pos hnp]
    exact ⟨rfl, rfl⟩

/-- Witness for C7: cancelling the `PENDING` row 1 of the sample store. -/
theorem C7_witness :
    (sampleCall.status = CallStatus.PENDING →
      (ScheduledCallCancel.DELETE [sampleCall, sampleCall2] 1 1).httpStatus =
        200 ∧
      (∀ r ∈ (ScheduledCallCancel.DELETE [sampleCall, sampleCall2] 1
          1).scheduledCalls,
        (r.id = 1 → r.status = CallStatus.CANCELLED) ∧
        (r.id ≠ 1 → r ∈ [sampleCall, sampleCall2]))) ∧
    (sampleCall.status ≠ CallStatus.PENDING →
      (ScheduledCallCancel.DELETE [sampleCall, sampleCall2] 1 1).httpStatus =
        400 ∧
      (ScheduledCallCancel.DELETE [sampleCall, sampleCall2] 1
        1).scheduledCalls = [sampleCall, sampleCall2]) :=
  C7_cancel_only_pending [sampleCall, sampleCall2] 1 1 sampleCall
    (by decide) (by decide)

/-! ### Claim C8 -/

/-- Counterexample to C8 as stated: on the batch dispatch-trigger path the
merged variable map contains NO time-of-day greeting — only the cron
dispatcher adds one — so the map differs from the spec's merge (which lists
the greeting among the computed fields). -/
theorem C8_counterexample :
    lookupKV (buildDynamicVariables sampleContact [] envOk) "greeting" =
      none ∧
    lookupKV (specDispatchVars sampleContact [] envOk) "greeting" =
      some "Good morning" ∧
    buildDynamicVariables sampleContact [] envOk ≠
      specDispatchVars sampleContact [] envOk := by
  decide

/-- C8 (amended): the dispatch variable map resolves every key by the
precedence computed fields > caller overrides > contact custom fields >
built-ins — with the computed fields being current date and current time
only; the time-of-day greeting is an additional computed field only on the
legacy cron dispatch path. -/
theorem C8_amended_merge_precedence
    (c : Contact) (provided : List (String × String)) (env : DispatchEnv)
    (hc : nodupKeys c.customFields) (hp : nodupKeys provided) :
    ∀ k : String,
      lookupKV (buildDynamicVariables c provided env) k =
        orO (lookupKV (computedVars env) k)
          (orO (lookupKV provided k)
            (orO (lookupKV c.customFields k)
              (lookupKV (builtinVars c) k))) ∧
      lookupKV (buildDynamicVariablesCron c provided env) k =
        orO (lookupKV (computedVarsCron env) k)
          (orO (lookupKV provided k)
            (orO (lookupKV c.customFields k)
              (lookupKV (builtinVars c) k))) := by
  intro k
  have hcomp : nodupKeys (computedVars env) := by
    simp [computedVars, nodupKeys]
  have hcompc : nodupKeys (computedVarsCron env) := by
    simp [computedVarsCron, computedVars, nodupKeys]
  constructor
  · simp only [buildDynamicVariables]
    rw [lookupKV_mergeMaps, lookupKV_mergeMaps, lookupKV_mergeMaps,
      lookupLast_eq_lookupKV _ _ hcomp, lookupLast_eq_lookupKV _ _ hp,
      lookupLast_eq_lookupKV _ _ hc]
  · simp only [buildDynamicVariablesCron]
    rw [lookupKV_mergeMaps, lookupKV_mergeMaps, lookupKV_mergeMaps,
      lookupLast_eq_lookupKV _ _ hcompc, lookupLast_eq_lookupKV _ _ hp,
      lookupLast_eq_lookupKV _ _ hc]

/-- Witness for the amended C8 at a concrete contact, override map,
environment and key: the trigger-path map has no greeting, the cron-path
map resolves it from the computed fields. -/
theorem C8_amended_witness :
    (lookupKV (buildDynamicVariables sampleContact [("foo", "bar")] envOk)
        "greeting" =
      orO (lookupKV (computedVars envOk) "greeting")
        (orO (lookupKV [("foo", "bar")] "greeting")
          (orO (lookupKV sampleContact.customFields "greeting")
            (lookupKV (builtinVars sampleContact) "greeting")))) ∧
    (lookupKV
        (buildDynamicVariablesCron sampleContact [("foo", "bar")] envOk)
        "greeting" =
      orO (lookupKV (computedVarsCron envOk) "greeting")
        (orO (lookupKV [("foo", "bar")] "greeting")
          (orO (lookupKV sampleContact.customFields "greeting")
            (lookupKV (builtinVars sampleContact) "greeting")))) :=
  ⟨(C8_amended_merge_precedence sampleContact [("foo", "bar")] envOk
      (by decide) (by decide) "greeting").1,
   (C8_amended_merge_precedence sampleContact [("foo", "bar")] envOk
      (by decide) (by decide) "greeting").2⟩

/-! ### Claim C9 -/

/-- The store after the cron loop body's `IN_PROGRESS` update, which sets
`attempts` to the loaded row's pre-increment value plus one. -/
def cronInProgressStore (store : Store) (sc : ScheduledCall) : Store :=
  let rows1 := updateSC store.scheduledCalls sc.id
    (fun r => { r with status := CallStatus.IN_PROGRESS,
                       attempts := sc.attempts + 1 })
  { store with scheduledCalls := rows1 }

/-- C9: in the legacy polling dispatcher, a due `PENDING` row whose
placement attempt fails ends with `attempts` incremented, an error message
stored, and status `PENDING` again (retryable) exactly when the
pre-attempt `attempts` was below `maxAttempts`, `FAILED` otherwise — so
only exhausting `maxAttempts` makes the polling path terminal, unlike the
batch-chained path where the first failure is final. -/
theorem C9_cron_retries_until_max
    (store : Store) (sc : ScheduledCall) (env : DispatchEnv) (msg : String)
    (hmem : sc ∈ store.scheduledCalls)
    (_hpend : sc.status = CallStatus.PENDING)
    (hfail : dispatchFailureMsg env = some msg) :
    (∃ r ∈ (CronProcess.processOne store sc env).store.scheduledCalls,
        r.id = sc.id) ∧
    ∀ r ∈ (CronProcess.processOne store sc env).store.scheduledCalls,
      r.id = sc.id →
        r.attempts = sc.attempts + 1 ∧
        r.status = (if sc.attempts < sc.maxAttempts then CallStatus.PENDING
          else CallStatus.FAILED) ∧
        ∃ m, r.errorMessage = some m := by
  have key : ∀ (pl : List RetellPayload) (msg2 : String),
      (∃ r ∈ (CronProcess.failPath (cronInProgressStore store sc) sc pl
          msg2).store.scheduledCalls, r.id = sc.id) ∧
      ∀ r ∈ (CronProcess.failPath (cronInProgressStore store sc) sc pl
          msg2).store.scheduledCalls,
        r.id = sc.id →
          r.attempts = sc.attempts + 1 ∧
          r.status = (if sc.attempts < sc.maxAttempts then CallStatus.PENDING
            else CallStatus.FAILED) ∧
          ∃ m, r.errorMessage = some m := by
    intro pl msg2
    constructor
    · have h1 := mem_updateSC_self store.scheduledCalls sc.id
        (fun r => { r with status := CallStatus.IN_PROGRESS,
                           attempts := sc.attempts + 1 }) sc hmem
      rw [if_pos rfl] at h1
      have h2 := mem_updateSC_self
        (cronInProgressStore store sc).scheduledCalls sc.id
        (fun r => { r with
          status := if sc.attempts < sc.maxAttempts then CallStatus.PENDING
            else CallStatus.FAILED,
          errorMessage := some msg2 }) _ h1
      rw [if_pos rfl] at h2
      exact ⟨_, h2, rfl⟩
    · intro r hr hrid
      obtain ⟨x, hx, hrx⟩ := mem_updateSC hr
      by_cases h : x.id = sc.id
      · rw [if_pos h] at hrx
        subst hrx
        obtain ⟨y, hy, hxy⟩ := mem_updateSC hx
        by_cases h2 : y.id = sc.id
        · rw [if_pos h2] at hxy
          subst hxy
          exact ⟨rfl, rfl, ⟨msg2, rfl⟩⟩
        · rw [if_neg h2] at hxy
          subst hxy
          exact absurd h h2
      · rw [if_neg h] at hrx
        subst hrx
        exact absurd hrid h
  cases hk : env.retellApiKey with
  | none =>
    have hred : CronProcess.processOne store sc env =
        CronProcess.failPath (cronInProgressStore store sc) sc []
          "RETELL_API_KEY not configured" := by
      simp only [CronProcess.processOne, hk]
      rfl
    rw [hred]
    exact key [] "RETELL_API_KEY not configured"
  | some k =>
    cases hcon : store.contacts.find?
        (fun c => decide (c.id = sc.contactId)) with
    | none =>
      have hred : CronProcess.processOne store sc env =
          CronProcess.failPath (cronInProgressStore store sc) sc []
            "contact record missing" := by
        simp only [CronProcess.processOne, hk, hcon]
        rfl
      rw [hred]
      exact key [] "contact record missing"
    | some contact =>
      cases hp : env.provider with
      | ok call_id =>
        rw [dispatchFailureMsg, hk, hp] at hfail
        simp at hfail
      | httpError body =>
        have hred : CronProcess.processOne store sc env =
            CronProcess.failPath (cronInProgressStore store sc) sc
              [{ from_number := sc.fromNumber
                 to_number := contact.phoneNumber
                 override_agent_id := sc.agentId
                 retell_llm_dynamic_variables :=
                   buildDynamicVariablesCron contact sc.dynamicVariables
                     env }]
              ("Retell API error: " ++ body) := by
          simp only [CronProcess.processOne, hk, hcon, hp]
          rfl
        rw [hred]
        exact key _ _
      | transportError m =>
        have hred : CronProcess.processOne store sc env =
            CronProcess.failPath (cronInProgressStore store sc) sc
              [{ from_number := sc.fromNumber
                 to_number := contact.phoneNumber
                 override_agent_id := sc.agentId
                 retell_llm_dynamic_variables :=
                   buildDynamicVariablesCron contact sc.dynamicVariables
                     env }] m := by
          simp only [CronProcess.processOne, hk, hcon, hp]
          rfl
        rw [hred]
        exact key _ _

/-- Witness for C9: a first failure of row 1 (attempts 0 < maxAttempts 3)
on the polling path puts it back to `PENDING` with attempts 1. -/
theorem C9_witness :
    (∃ r ∈ (CronProcess.processOne sampleStore sampleCall
        envNoKey).store.scheduledCalls, r.id = sampleCall.id) ∧
    ∀ r ∈ (CronProcess.processOne sampleStore sampleCall
        envNoKey).store.scheduledCalls,
      r.id = sampleCall.id →
        r.attempts = sampleCall.attempts + 1 ∧
        r.status = (if sampleCall.attempts < sampleCall.maxAttempts then
          CallStatus.PENDING else CallStatus.FAILED) ∧
        ∃ m, r.errorMessage = some m :=
  C9_cron_retries_until_max sampleStore sampleCall envNoKey
    "RETELL_API_KEY not configured" (by decide) (by decide) (by decide)

/-! ### Claim C10 -/

theorem mapIdxFrom_forall {α β : Type} (f : Nat → α → β) (P : β → Prop)
    (hP : ∀ i x, P (f i x)) :
    ∀ (j : Nat) (l : List α), ∀ r ∈ ScheduledCallsApi.mapIdxFrom f j l,
      P r := by
  intro j l
  induction l generalizing j with
  | nil => simp [ScheduledCallsApi.mapIdxFrom]
  | cons x xs ih =>
    intro r hr
    rcases List.mem_cons.mp hr with h | h
    · rw [h]
      exact hP j x
    · exact ih (j + 1) r h

/-- C10: when the QStash registration for the batch's first call fails, the
failure is swallowed — all rows are still persisted as `PENDING` and the
endpoint still answers 201 — while no trigger registration exists. -/
theorem C10_publish_failure_swallowed
    (rows : List ScheduledCall) (org : Nat) (contacts : List Contact)
    (requestedStart : Int) (fromNumber agentId : String)
    (dynVars : List (String × String)) (benv : ScheduledCallsApi.BatchEnv)
    (_hne : contacts ≠ [])
    (hq : benv.qstashOk = false) :
    (ScheduledCallsApi.POST rows org contacts requestedStart fromNumber
        agentId dynVars benv).httpStatus = 201 ∧
    (ScheduledCallsApi.POST rows org contacts requestedStart fromNumber
        agentId dynVars benv).published = [] ∧
    (ScheduledCallsApi.POST rows org contacts requestedStart fromNumber
        agentId dynVars benv).scheduledCalls.length = contacts.length ∧
    (∀ r ∈ (ScheduledCallsApi.POST rows org contacts requestedStart
        fromNumber agentId dynVars benv).scheduledCalls,
      r.status = CallStatus.PENDING) ∧
    (ScheduledCallsApi.POST rows org contacts requestedStart fromNumber
        agentId dynVars benv).store =
      rows ++ (ScheduledCallsApi.POST rows org contacts requestedStart
        fromNumber agentId dynVars benv).scheduledCalls := by
  refine ⟨rfl, ?_, ?_, ?_, rfl⟩
  · simp only [ScheduledCallsApi.POST]
    cases ScheduledCallsApi.mapIdxFrom
        (fun i c => ScheduledCallsApi.mkScheduledCall org fromNumber agentId
          dynVars benv (ScheduledCallsApi.computeEffectiveStart rows org
            requestedStart contacts.length) i c) 0 contacts with
    | nil => rfl
    | cons a l => simp [hq]
  · simp [ScheduledCallsApi.POST, ScheduledCallsApi.mapIdxFrom_length]
  · intro r hr
    simp only [ScheduledCallsApi.POST] at hr
    exact mapIdxFrom_forall _ (fun r => r.status = CallStatus.PENDING)
      (fun i x => rfl) 0 contacts r hr

/-- Batch environment whose QStash publish fails, for the C10 witness. -/
def batchEnvNoQ : ScheduledCallsApi.BatchEnv :=
  { batchId := 7, idBase := 1, now := 0, qstashOk := false }

/-- Witness for C10: one contact, failing QStash publish — row persisted
`PENDING`, nothing published, HTTP 201. -/
theorem C10_witness :
    (ScheduledCallsApi.POST [] 1 [sampleContact] 1000000 "+612" "agent_1" []
        batchEnvNoQ).httpStatus = 201 ∧
    (ScheduledCallsApi.POST [] 1 [sampleContact] 1000000 "+612" "agent_1" []
        batchEnvNoQ).published = [] ∧
    (ScheduledCallsApi.POST [] 1 [sampleContact] 1000000 "+612" "agent_1" []
        batchEnvNoQ).scheduledCalls.length = [sampleContact].length ∧
    (∀ r ∈ (ScheduledCallsApi.POST [] 1 [sampleContact] 1000000 "+612"
        "agent_1" [] batchEnvNoQ).scheduledCalls,
      r.status = CallStatus.PENDING) ∧
    (ScheduledCallsApi.POST [] 1 [sampleContact] 1000000 "+612" "agent_1" []
        batchEnvNoQ).store =
      [] ++ (ScheduledCallsApi.POST [] 1 [sampleContact] 1000000 "+612"
        "agent_1" [] batchEnvNoQ).scheduledCalls :=
  C10_publish_failure_swallowed [] 1 [sampleContact] 1000000 "+612"
    "agent_1" [] batchEnvNoQ (by decide) rfl

end VoiceBot
